import Mathlib

/-!
# Verification of the cas-alert deduplication core

Shallow embedding of the deduplication and record-identity subsystem of the
cas-alert repository:

* `src/cas_alert/data/models.py` — the `Alert` dataclass, its MD5 identity
  hash (`generate_hash`), `__post_init__`, `to_dict`, `from_dict`;
* `src/cas_alert/data/duplicates.py` — `DuplicateManager.is_duplicate` and
  `DuplicateManager.remove_duplicates`;
* `src/cas_alert/storage/google_sheets.py` — the duplicate-skipping selection
  loop of `GoogleSheetsManager.update_with_new_alerts`;
* `src/cas_alert/config/settings.py` — `DUPLICATE_THRESHOLD` (default 0.85).

Python `datetime` values are modelled as records of calendar/clock fields;
`datetime.now()` is modelled as an explicit `now` parameter threaded to the
operations that call it.  Python floats appearing in the threshold comparison
are modelled as rationals (the only float expression involved,
`0.85 * 100`, evaluates to exactly `85.0` in IEEE double precision, so the
rational model agrees with the float semantics on everything used here).
Fallible Python code (`datetime.strptime` raising `ValueError`) is modelled
with `Option`.
-/

namespace CasAlert

/-- Model of a Python `datetime.datetime` value: calendar day plus clock time.
`date()` projects the first three fields. -/
structure DateTime where
  year : Nat
  month : Nat
  day : Nat
  hour : Nat
  minute : Nat
  second : Nat
deriving DecidableEq, Repr

/-- Python `datetime.date()`: the calendar-day projection used by
`is_duplicate` for same-day comparison. -/
def DateTime.date (d : DateTime) : Nat × Nat × Nat := (d.year, d.month, d.day)

/-- Day granularity: midnight (what `datetime.strptime(s, perc-Y-m-d)` produces). -/
def DateTime.midnight (d : DateTime) : DateTime := ⟨d.year, d.month, d.day, 0, 0, 0⟩

/-- Decimal digit character for a value below 10 (the digit table used by
`strftime` / `chr(48+n)`); values ≥ 10 never occur at call sites. -/
def digitChar (n : Nat) : Char :=
  match n with
  | 0 => '0' | 1 => '1' | 2 => '2' | 3 => '3' | 4 => '4'
  | 5 => '5' | 6 => '6' | 7 => '7' | 8 => '8' | _ => '9'

/-- Zero-padded decimal rendering of `n` to exactly `k` digit characters
(the `perc-0kd` behaviour of `strftime` for in-range values). -/
def padDigits (k n : Nat) : List Char :=
  match k with
  | 0 => []
  | k' + 1 => padDigits k' (n / 10) ++ [digitChar (n % 10)]

/-- Digit predicate (ASCII `'0'`–`'9'`), as used by `strptime` field scanning. -/
def isDig (c : Char) : Bool := 48 ≤ c.toNat && c.toNat ≤ 57

/-- Numeric value of a digit character. -/
def charVal (c : Char) : Nat := c.toNat - 48

/-- Value of a digit string, most significant first. -/
def digitsVal (cs : List Char) : Nat := cs.foldl (fun acc c => acc * 10 + charVal c) 0

/-- `issue_date.strftime(perc-Y-perc-m-perc-d)` from `Alert.generate_hash` /
`Alert.to_dict`: `YYYY-MM-DD`, zero padded. -/
def formatDate (d : DateTime) : String :=
  ⟨padDigits 4 d.year ++ '-' :: (padDigits 2 d.month ++ '-' :: padDigits 2 d.day)⟩

/-- `scraped_at.strftime(perc-Y-perc-m-perc-d perc-H-perc-M-perc-S)` from
`Alert.to_dict`: `YYYY-MM-DD HH:MM:SS`. -/
def formatDateTime (t : DateTime) : String :=
  ⟨padDigits 4 t.year ++ '-' :: (padDigits 2 t.month ++ '-' ::
    (padDigits 2 t.day ++ ' ' :: (padDigits 2 t.hour ++ ':' ::
      (padDigits 2 t.minute ++ ':' :: padDigits 2 t.second))))⟩

/-- Days in a month, Gregorian calendar with leap years, as validated by
Python `datetime` construction inside `strptime`. -/
def daysInMonth (y m : Nat) : Nat :=
  if m = 2 then
    if y % 4 = 0 && (y % 100 ≠ 0 || y % 400 = 0) then 29 else 28
  else if m = 4 || m = 6 || m = 9 || m = 11 then 30
  else 31

/-- A calendar day Python `datetime` accepts (year 1–9999, valid month/day). -/
def validDay (y m d : Nat) : Prop :=
  1 ≤ y ∧ y ≤ 9999 ∧ 1 ≤ m ∧ m ≤ 12 ∧ 1 ≤ d ∧ d ≤ daysInMonth y m

instance (y m d : Nat) : Decidable (validDay y m d) := by
  unfold validDay; infer_instance

/-- Scan a decimal field: leading digits and the rest of the input. -/
def scanNat (cs : List Char) : List Char × List Char :=
  (cs.takeWhile isDig, cs.dropWhile isDig)

/-- Python regex whitespace (the `\s` class, which a blank inside a `strptime`
format compiles to): space, tab, newline, vertical tab, form feed, carriage
return — code points 32 and 9–13. -/
def isSpace (c : Char) : Bool := c.toNat = 32 || (9 ≤ c.toNat && c.toNat ≤ 13)

/-- Scan a whitespace run (a blank in a `strptime` format matches one or more
whitespace characters). -/
def scanSpace (cs : List Char) : List Char × List Char :=
  (cs.takeWhile isSpace, cs.dropWhile isSpace)

/-- `datetime.strptime(s, perc-Y-perc-m-perc-d)`, returning `none` where
Python raises `ValueError`.  CPython compiles the format to the regex
`(dddd)-(1[0-2]|0[1-9]|[1-9])-(3[01]|[12]d|0[1-9]|[1-9])` (`d` a digit):
against a digit field followed by a forced non-digit delimiter the
alternations consume exactly the maximal digit run or fail, so the field is
faithfully modelled as a maximal digit run of width exactly 4 for the year
and at most 2 for month and day, with the month and day value ranges checked
(the regex enforces 1–12 / 1–31; `datetime` construction then enforces
year ≥ 1 and the day-in-month bound, and requires the whole string to be
consumed).  Digits are modelled as ASCII; CPython's Unicode-aware classes
also accept non-ASCII digits, so the model accepts a subset of what Python
accepts and never succeeds on a string Python rejects. -/
def parseYmd (s : String) : Option DateTime :=
  let (ys, r1) := scanNat s.data
  match r1 with
  | '-' :: r2 =>
    let (ms, r3) := scanNat r2
    match r3 with
    | '-' :: r4 =>
      let (ds, r5) := scanNat r4
      if r5 = [] ∧ ys.length = 4 ∧ ms ≠ [] ∧ ms.length ≤ 2 ∧
         ds ≠ [] ∧ ds.length ≤ 2 then
        let y := digitsVal ys
        let m := digitsVal ms
        let d := digitsVal ds
        if validDay y m d then some ⟨y, m, d, 0, 0, 0⟩ else none
      else none
    | _ => none
  | _ => none

/-- A clock time Python `datetime` accepts. -/
def validClock (h mi s : Nat) : Prop := h ≤ 23 ∧ mi ≤ 59 ∧ s ≤ 59

instance (h mi s : Nat) : Decidable (validClock h mi s) := by
  unfold validClock; infer_instance

/-- A full timestamp Python `datetime` accepts. -/
def validStamp (t : DateTime) : Prop :=
  validDay t.year t.month t.day ∧ validClock t.hour t.minute t.second

instance (t : DateTime) : Decidable (validStamp t) := by
  unfold validStamp; infer_instance

/-- `datetime.strptime(s, perc-Y-perc-m-perc-d perc-H-perc-M-perc-S)`,
returning `none` where Python raises `ValueError`.  As in `parseYmd`, each
CPython field regex consumes exactly the maximal digit run or fails, so the
fields are maximal digit runs of width exactly 4 (year) or at most 2 (the
rest) with the regex value ranges checked; the blank of the format compiles
to one-or-more whitespace; `2[0-3]|[0-1]d|d` bounds the hour at 23 and
`[0-5]d|d` the minute at 59; the seconds pattern `6[0-1]|[0-5]d|d` also
matches 60 and 61, but `datetime` construction rejects those, so the net
bound is 59 (`validStamp`), and construction also enforces year ≥ 1 and the
day-in-month bound.  Digits and whitespace are modelled as ASCII; CPython's
Unicode-aware classes also accept non-ASCII digits and spaces, so the model
accepts a subset of what Python accepts and never succeeds on a string
Python rejects. -/
def parseYmdHms (s : String) : Option DateTime :=
  let (ys, r1) := scanNat s.data
  match r1 with
  | '-' :: r2 =>
    let (ms, r3) := scanNat r2
    match r3 with
    | '-' :: r4 =>
      let (ds, r5) := scanNat r4
      let (ws, r6) := scanSpace r5
      let (hs, r7) := scanNat r6
      match r7 with
      | ':' :: r8 =>
        let (mis, r9) := scanNat r8
        match r9 with
        | ':' :: r10 =>
          let (ss, r11) := scanNat r10
          if r11 = [] ∧ ys.length = 4 ∧ ms ≠ [] ∧ ms.length ≤ 2 ∧
             ds ≠ [] ∧ ds.length ≤ 2 ∧ ws ≠ [] ∧
             hs ≠ [] ∧ hs.length ≤ 2 ∧ mis ≠ [] ∧ mis.length ≤ 2 ∧
             ss ≠ [] ∧ ss.length ≤ 2 then
            let t : DateTime :=
              ⟨digitsVal ys, digitsVal ms, digitsVal ds,
               digitsVal hs, digitsVal mis, digitsVal ss⟩
            if validStamp t then some t else none
          else none
        | _ => none
      | _ => none
    | _ => none
  | _ => none

/-! ### MD5 (`hashlib.md5(...).hexdigest()` from `Alert.generate_hash`)

32-bit words are modelled as `Nat` values kept below `2 ^ 32` by explicit
reduction `% 4294967296`. -/
/-- `2 ^ 32`. -/
def M32 : Nat := 4294967296

/-- Bitwise NOT on a 32-bit word. -/
def wnot (x : Nat) : Nat := 4294967295 - x

/-- 32-bit left rotation. -/
def rotl (x c : Nat) : Nat := ((x <<< c) ||| (x >>> (32 - c))) % M32

/-- MD5 round function F. -/
def mdF (b c d : Nat) : Nat := (b &&& c) ||| (wnot b &&& d)

/-- MD5 round function G. -/
def mdG (b c d : Nat) : Nat := (d &&& b) ||| (wnot d &&& c)

/-- MD5 round function H. -/
def mdH (b c d : Nat) : Nat := b ^^^ c ^^^ d

/-- MD5 round function I. -/
def mdI (b c d : Nat) : Nat := c ^^^ (b ||| wnot d)

/-- MD5 per-round left-rotation amounts. -/
def mdShift : List Nat :=
  [7, 12, 17, 22, 7, 12, 17, 22, 7, 12, 17, 22, 7, 12, 17, 22,
   5, 9, 14, 20, 5, 9, 14, 20, 5, 9, 14, 20, 5, 9, 14, 20,
   4, 11, 16, 23, 4, 11, 16, 23, 4, 11, 16, 23, 4, 11, 16, 23,
   6, 10, 15, 21, 6, 10, 15, 21, 6, 10, 15, 21, 6, 10, 15, 21]

/-- MD5 sine-derived additive constants. -/
def mdK : List Nat :=
  [3614090360, 3905402710, 606105819, 3250441966,
   4118548399, 1200080426, 2821735955, 4249261313,
   1770035416, 2336552879, 4294925233, 2304563134,
   1804603682, 4254626195, 2792965006, 1236535329,
   4129170786, 3225465664, 643717713, 3921069994,
   3593408605, 38016083, 3634488961, 3889429448,
   568446438, 3275163606, 4107603335, 1163531501,
   2850285829, 4243563512, 1735328473, 2368359562,
   4294588738, 2272392833, 1839030562, 4259657740,
   2763975236, 1272893353, 4139469664, 3200236656,
   681279174, 3936430074, 3572445317, 76029189,
   3654602809, 3873151461, 530742520, 3299628645,
   4096336452, 1126891415, 2878612391, 4237533241,
   1700485571, 2399980690, 4293915773, 2240044497,
   1873313359, 4264355552, 2734768916, 1309151649,
   4149444226, 3174756917, 718787259, 3951481745]

/-- Little-endian byte rendering of `n` to `k` bytes. -/
def leBytes (k n : Nat) : List Nat :=
  match k with
  | 0 => []
  | k' + 1 => n % 256 :: leBytes k' (n / 256)

/-- Little-endian 32-bit words from a byte list (length a multiple of 4). -/
def leWords : List Nat → List Nat
  | b0 :: b1 :: b2 :: b3 :: rest =>
    (b0 + 256 * b1 + 65536 * b2 + 16777216 * b3) :: leWords rest
  | _ => []

/-- One MD5 round: update `(a, b, c, d)` with round index `i` over message
words `m`. -/
def mdRound (m : List Nat) (st : Nat × Nat × Nat × Nat) (i : Nat) :
    Nat × Nat × Nat × Nat :=
  let (a, b, c, d) := st
  let (f, g) :=
    if i < 16 then (mdF b c d, i)
    else if i < 32 then (mdG b c d, (5 * i + 1) % 16)
    else if i < 48 then (mdH b c d, (3 * i + 5) % 16)
    else (mdI b c d, (7 * i) % 16)
  let f' := (f + a + mdK.getD i 0 + m.getD g 0) % M32
  (d, (b + rotl f' (mdShift.getD i 0)) % M32, b, c)

/-- Process one 64-byte chunk, updating the running digest state. -/
def mdChunk (st : Nat × Nat × Nat × Nat) (chunk : List Nat) :
    Nat × Nat × Nat × Nat :=
  let m := leWords chunk
  let (a0, b0, c0, d0) := st
  let (a, b, c, d) := (List.range 64).foldl (mdRound m) (a0, b0, c0, d0)
  ((a0 + a) % M32, (b0 + b) % M32, (c0 + c) % M32, (d0 + d) % M32)

/-- Split a byte list into 64-byte chunks, with fuel for structural
recursion (each step consumes at least one byte, so `l.length` fuel
suffices). -/
def chunks64Fuel : Nat → List Nat → List (List Nat)
  | _, [] => []
  | 0, _ :: _ => []
  | fuel + 1, x :: xs => (x :: xs).take 64 :: chunks64Fuel fuel ((x :: xs).drop 64)

/-- Split a byte list into 64-byte chunks. -/
def chunks64 (l : List Nat) : List (List Nat) := chunks64Fuel l.length l

/-- MD5 padding: append `0x80`, zero bytes to 56 mod 64, then the bit length
as 8 little-endian bytes. -/
def mdPad (msg : List Nat) : List Nat :=
  let padLen := (119 - msg.length % 64) % 64
  msg ++ 128 :: List.replicate padLen 0 ++ leBytes 8 ((8 * msg.length) % (2 ^ 64))

/-- Lower-case hex digit table. -/
def hexDigit (n : Nat) : Char :=
  match n with
  | 0 => '0' | 1 => '1' | 2 => '2' | 3 => '3' | 4 => '4'
  | 5 => '5' | 6 => '6' | 7 => '7' | 8 => '8' | 9 => '9'
  | 10 => 'a' | 11 => 'b' | 12 => 'c' | 13 => 'd' | 14 => 'e' | _ => 'f'

/-- Two-character hex rendering of a byte. -/
def byteHex (b : Nat) : List Char := [hexDigit (b / 16), hexDigit (b % 16)]

/-- MD5 digest of a byte list, as a 32-character lower-case hex string
(`hashlib.md5(content).hexdigest()`). -/
def md5Bytes (msg : List Nat) : String :=
  let (a, b, c, d) :=
    (chunks64 (mdPad msg)).foldl mdChunk (1732584193, 4023233417, 2562383102, 271733878)
  ⟨((leBytes 4 a ++ leBytes 4 b ++ leBytes 4 c ++ leBytes 4 d).map byteHex).flatten⟩

/-- UTF-8 bytes of a string (`str.encode()`), via the core encoder. -/
def strBytes (s : String) : List Nat :=
  (s.data.map (fun c => (String.utf8EncodeChar c).map UInt8.toNat)).flatten

/-- `hashlib.md5(s.encode()).hexdigest()`. -/
def md5hex (s : String) : String := md5Bytes (strBytes s)

/-! ### The `Alert` dataclass (`src/cas_alert/data/models.py`) -/
/-- The `Alert` dataclass.  `Optional[...]` fields are `Option`; a field whose
Python value may be `None` or an empty string is truthy exactly when it is
`some` of a non-empty string. -/
structure Alert where
  reference : String
  title : String
  originator : String
  issue_date : DateTime
  status : String
  alert_type : String
  source : String
  url : String
  medical_specialty : Option String := none
  scraped_at : Option DateTime := none
  hash_id : Option String := none
  action_category : Option String := none
  broadcast_content : Option String := none
  additional_info : Option String := none
  action_underway_deadline : Option String := none
  action_complete_deadline : Option String := none
  attachments : Option String := none
deriving DecidableEq, Repr

/-- `Alert.generate_hash`: MD5 of
`reference | title | originator | issue_date.strftime(perc-Y-perc-m-perc-d)`
joined by the `|` delimiter. -/
def Alert.generate_hash (a : Alert) : String :=
  md5hex (a.reference ++ "|" ++ a.title ++ "|" ++ a.originator ++ "|" ++
    formatDate a.issue_date)

/-- `Alert.__post_init__`: fill `scraped_at` with `datetime.now()` (the
explicit `now` argument) when `None`, then fill `hash_id` with
`generate_hash()` when `None`. -/
def Alert.postInit (now : DateTime) (a : Alert) : Alert :=
  let a1 := if a.scraped_at = none then { a with scraped_at := some now } else a
  if a1.hash_id = none then { a1 with hash_id := some a1.generate_hash } else a1

/-- Python truthiness of an `Optional[str]` value: not `None` and non-empty. -/
def optTruthy : Option String → Bool
  | some h => h != ""
  | none => false

/-- Python truthiness of `alert.hash_id`. -/
def Alert.hashTruthy (a : Alert) : Bool := optTruthy a.hash_id

/-- The string behind a truthy `hash_id` (`""` when `None`). -/
def Alert.hashStr (a : Alert) : String := a.hash_id.getD ""

/-- A flat string-keyed row, the value type of `Alert.to_dict` and the input
of `Alert.from_dict`.  A `none` field models an absent key (for which
`dict.get` returns `None`); `hashId` is `Option String` valued because the
`Hash ID` column stores `self.hash_id`, which may itself be `None`. -/
structure Row where
  reference : Option String := none
  title : Option String := none
  originator : Option String := none
  issueDate : Option String := none
  status : Option String := none
  alertType : Option String := none
  source : Option String := none
  url : Option String := none
  medicalSpecialty : Option String := none
  scrapedAt : Option String := none
  hashId : Option String := none
  actionCategory : Option String := none
  broadcastContent : Option String := none
  additionalInfo : Option String := none
  actionUnderwayDeadline : Option String := none
  actionCompleteDeadline : Option String := none
  attachments : Option String := none
deriving DecidableEq, Repr

/-- Python `x or ''` for an optional string. -/
def orEmpty (o : Option String) : String := o.getD ""

/-- Python `dict.get(k) or None`: collapse `None` and `""` to `None`. -/
def orNone (o : Option String) : Option String :=
  match o with
  | some s => if s = "" then none else some s
  | none => none

/-- `Alert.to_dict`: the flat row for DataFrame / Google Sheets. -/
def Alert.to_dict (a : Alert) : Row where
  reference := some a.reference
  title := some a.title
  originator := some a.originator
  issueDate := some (formatDate a.issue_date)
  status := some a.status
  alertType := some a.alert_type
  source := some a.source
  url := some a.url
  medicalSpecialty := some (orEmpty a.medical_specialty)
  scrapedAt := some (match a.scraped_at with
    | some t => formatDateTime t
    | none => "")
  hashId := a.hash_id
  actionCategory := some (orEmpty a.action_category)
  broadcastContent := some (orEmpty a.broadcast_content)
  additionalInfo := some (orEmpty a.additional_info)
  actionUnderwayDeadline := some (orEmpty a.action_underway_deadline)
  actionCompleteDeadline := some (orEmpty a.action_complete_deadline)
  attachments := some (orEmpty a.attachments)

/-- `Alert.from_dict`: reconstruct an `Alert` from a flat row.  `none` models
the `ValueError` Python raises when a non-empty `Issue Date` or `Scraped At`
entry fails `strptime`; an empty or absent entry is replaced by
`datetime.now()` (the `now` argument).  The constructor call runs
`__post_init__`. -/
def Alert.from_dict (data : Row) (now : DateTime) : Option Alert :=
  Option.bind
    (if (data.issueDate).getD "" = "" then some now
     else parseYmd ((data.issueDate).getD "")) fun issueDate =>
  Option.bind
    (if (data.scrapedAt).getD "" = "" then some now
     else parseYmdHms ((data.scrapedAt).getD "")) fun scrapedAt =>
  some (Alert.postInit now
    { reference := (data.reference).getD ""
      title := (data.title).getD ""
      originator := (data.originator).getD ""
      issue_date := issueDate
      status := (data.status).getD ""
      alert_type := (data.alertType).getD ""
      source := (data.source).getD ""
      url := (data.url).getD ""
      medical_specialty := orNone data.medicalSpecialty
      scraped_at := some scrapedAt
      hash_id := data.hashId
      action_category := orNone data.actionCategory
      broadcast_content := orNone data.broadcastContent
      additional_info := orNone data.additionalInfo
      action_underway_deadline := orNone data.actionUnderwayDeadline
      action_complete_deadline := orNone data.actionCompleteDeadline
      attachments := orNone data.attachments })

/-- Validity of an optional `scraped_at` timestamp: absent, or a timestamp
Python accepts. -/
def scrapedValid : Option DateTime → Prop
  | none => True
  | some t => validStamp t

instance : (o : Option DateTime) → Decidable (scrapedValid o)
  | none => .isTrue trivial
  | some t => inferInstanceAs (Decidable (validStamp t))

/-- A valid `Alert` record: its `hash_id` is set and non-empty (as after
construction), its `issue_date` is a calendar day Python accepts, carried at
day granularity (midnight, as all scraper-produced and stored dates are), and
its `scraped_at`, when set, is a timestamp Python accepts. -/
def Alert.Valid (a : Alert) : Prop :=
  a.hashTruthy = true ∧
  validDay a.issue_date.year a.issue_date.month a.issue_date.day ∧
  a.issue_date.hour = 0 ∧ a.issue_date.minute = 0 ∧ a.issue_date.second = 0 ∧
  scrapedValid a.scraped_at

instance (a : Alert) : Decidable a.Valid := by
  unfold Alert.Valid
  infer_instance

/-! ### Fuzzy title similarity (`fuzz.ratio` from fuzzywuzzy)

`fuzz.ratio(s1, s2)` is `int(round(100 * (lensum - ldist) / lensum))` where
`ldist` is the Levenshtein edit distance with insertions and deletions costing
1 and substitutions costing 2, and rounding is Python 3 round-half-to-even. -/
/-- Helper for `lev`: given `f = lev xs`, computes `lev (x :: xs)` by
structural recursion on the second word (`tailLen = xs.length`). -/
def levAux (f : List Char → Nat) (x : Char) (tailLen : Nat) : List Char → Nat
  | [] => tailLen + 1
  | y :: ys =>
    if x = y then f ys
    else min (f (y :: ys) + 1) (min (levAux f x tailLen ys + 1) (f ys + 2))

/-- Levenshtein edit distance with substitution cost 2 (insert/delete cost 1),
the distance underlying the `fuzz.ratio` similarity. -/
def lev : List Char → List Char → Nat
  | [], ys => ys.length
  | x :: xs, ys => levAux (lev xs) x xs.length ys

/-- Round the rational `num / den` (with `den > 0`) to the nearest natural,
halves to even (Python 3 `round`). -/
def roundHalfEven (num den : Nat) : Nat :=
  let q := num / den
  let r := num % den
  if 2 * r < den then q
  else if den < 2 * r then q + 1
  else if q % 2 = 0 then q else q + 1

/-- `fuzz.ratio` on the 0–100 scale. -/
def fuzzRatio (s1 s2 : String) : Nat :=
  let lensum := s1.length + s2.length
  if lensum = 0 then 100
  else roundHalfEven (100 * (lensum - lev s1.data s2.data)) lensum

/-- Python `str.lower()` (ASCII range; all titles compared in the development
are ASCII). -/
def strLower (s : String) : String := ⟨s.data.map Char.toLower⟩

/-! ### `DuplicateManager` (`src/cas_alert/data/duplicates.py`) -/
/-- `settings.DUPLICATE_THRESHOLD` default (`0.85`), written as the rational
`85 / 100` (the core constructor keeps kernel reduction available; see
`DUPLICATE_THRESHOLD_eq` below). -/
def DUPLICATE_THRESHOLD : ℚ := mkRat 85 100

/-- The comparison `title_similarity >= self.duplicate_threshold * 100` as a
boolean on rationals, written in the equivalent form
`¬ (sim / 100 < threshold)` so that kernel reduction can evaluate it (the
library multiplication on `ℚ` is irreducible); `simAtLeast_iff` restores the
source's `threshold * 100 ≤ sim` reading. -/
def simAtLeast (threshold : ℚ) (sim : Nat) : Bool :=
  !(Rat.blt (mkRat sim 100) threshold)

/-- `DuplicateManager.is_duplicate`: reference equality, then fuzzy title
similarity with same source and same calendar day, then hash equality. -/
def is_duplicate (threshold : ℚ) (alert1 alert2 : Alert) : Bool :=
  if alert1.reference != "" && alert1.reference == alert2.reference then
    true
  else if alert1.source == alert2.source
      && simAtLeast threshold (fuzzRatio (strLower alert1.title) (strLower alert2.title))
      && alert1.issue_date.date == alert2.issue_date.date then
    true
  else if alert1.hashTruthy && alert1.hash_id == alert2.hash_id then
    true
  else
    false

/-- First loop of `DuplicateManager.remove_duplicates` (lines 55–67): drop any
record whose non-empty `reference` or truthy `hash_id` was already seen,
accumulating the seen sets over the kept records. -/
def exactPass (seenRefs seenHashes : List String) : List Alert → List Alert
  | [] => []
  | a :: rest =>
    if a.reference != "" && seenRefs.contains a.reference then
      exactPass seenRefs seenHashes rest
    else if a.hashTruthy && seenHashes.contains a.hashStr then
      exactPass seenRefs seenHashes rest
    else
      a :: exactPass
        (if a.reference != "" then a.reference :: seenRefs else seenRefs)
        (if a.hashTruthy then a.hashStr :: seenHashes else seenHashes)
        rest

/-- Second loop of `DuplicateManager.remove_duplicates` (lines 74–97), with
`kept` the records appended to `final_unique_alerts` so far: an index `j` is
in `processed_indices` exactly when some earlier kept record
`is_duplicate`-matched it (records already marked are skipped as `i` and are
compared against no one), so a record is dropped iff a previously kept record
matches it. -/
def fuzzyPassAux (threshold : ℚ) (kept : List Alert) : List Alert → List Alert
  | [] => []
  | a :: rest =>
    if kept.any (fun k => is_duplicate threshold k a) then
      fuzzyPassAux threshold kept rest
    else
      a :: fuzzyPassAux threshold (kept ++ [a]) rest

/-- Second loop of `DuplicateManager.remove_duplicates`, from the empty
marking state. -/
def fuzzyPass (threshold : ℚ) (alerts : List Alert) : List Alert :=
  fuzzyPassAux threshold [] alerts

/-- `DuplicateManager.remove_duplicates`: the exact reference/hash pass
followed by the pairwise fuzzy pass. -/
def remove_duplicates (threshold : ℚ) (alerts : List Alert) : List Alert :=
  fuzzyPass threshold (exactPass [] [] alerts)

/-! ### Merge planner (`GoogleSheetsManager.update_with_new_alerts`,
`src/cas_alert/storage/google_sheets.py` lines 131–154) -/
/-- `{alert.hash_id for alert in existing_alerts if alert.hash_id}`. -/
def knownHashes (existing : List Alert) : List String :=
  (existing.filter Alert.hashTruthy).map Alert.hashStr

/-- `{alert.reference for alert in existing_alerts if alert.reference}`. -/
def knownRefs (existing : List Alert) : List String :=
  (existing.filter (fun a => a.reference != "")).map Alert.reference

/-- The selection loop of `update_with_new_alerts`: skip a candidate whose
truthy `hash_id` is among the existing hashes or whose non-empty `reference`
is among the existing references; otherwise accept it and add its truthy
hash / non-empty reference to the sets. -/
def selectNew (existingHashes existingRefs : List String) : List Alert → List Alert
  | [] => []
  | a :: rest =>
    if a.hashTruthy && existingHashes.contains a.hashStr then
      selectNew existingHashes existingRefs rest
    else if a.reference != "" && existingRefs.contains a.reference then
      selectNew existingHashes existingRefs rest
    else
      a :: selectNew
        (if a.hashTruthy then a.hashStr :: existingHashes else existingHashes)
        (if a.reference != "" then a.reference :: existingRefs else existingRefs)
        rest

/-- The merge planner of `update_with_new_alerts`: the alerts appended to the
sheet, given the sheet's current contents `known`. -/
def update_with_new_alerts (known new_alerts : List Alert) : List Alert :=
  selectNew (knownHashes known) (knownRefs known) new_alerts

/-! ## Specification-side predicates (transcribed from the spec's decision
rules, to be compared with the source-side `is_duplicate`) -/
/-- Spec decision rule 1: both `reference` non-empty and equal. -/
def refRule (a b : Alert) : Prop :=
  a.reference ≠ "" ∧ a.reference = b.reference

/-- Spec decision rule 2: `source` fields equal, similarity ratio of the
lower-cased titles at least `duplicate_threshold * 100`, and the two
`issue_date` values on the same calendar day. -/
def fuzzyRule (t : ℚ) (a b : Alert) : Prop :=
  a.source = b.source ∧
  t * 100 ≤ ((fuzzRatio (strLower a.title) (strLower b.title) : ℚ)) ∧
  a.issue_date.date = b.issue_date.date

/-- Spec decision rule 3: both `identity_hash` non-empty and equal. -/
def hashRule (a b : Alert) : Prop :=
  a.hash_id.getD "" ≠ "" ∧ a.hash_id = b.hash_id

instance (a b : Alert) : Decidable (refRule a b) := by
  unfold refRule; infer_instance

instance (a b : Alert) : Decidable (hashRule a b) := by
  unfold hashRule; infer_instance

/-! ## Supporting lemmas: the deduplication engine -/
/-- Two records the exact pass can both keep: no shared non-empty reference,
no shared truthy hash. -/
def exactDistinct (a b : Alert) : Prop :=
  (b.reference ≠ "" → a.reference ≠ "" → a.reference ≠ b.reference) ∧
  (b.hashTruthy = true → a.hashTruthy = true → a.hashStr ≠ b.hashStr)

/-! ## Supporting lemmas: the merge planner -/
/-- The merge planner's selection loop as the spec words it: accept a
candidate exactly when its non-empty identity hash is not in the known-hash
set and its non-empty reference is not in the known-reference set, and record
an accepted candidate's hash and reference immediately.  Only exact hash and
reference membership is consulted — the fuzzy detector does not occur. -/
def planSpec (knownH knownR : List String) : List Alert → List Alert
  | [] => []
  | a :: rest =>
    if (a.hash_id.getD "" ≠ "" → a.hash_id.getD "" ∉ knownH) ∧
       (a.reference ≠ "" → a.reference ∉ knownR) then
      a :: planSpec
        (if a.hash_id.getD "" ≠ "" then a.hash_id.getD "" :: knownH else knownH)
        (if a.reference ≠ "" then a.reference :: knownR else knownR)
        rest
    else planSpec knownH knownR rest

/-! ## Concrete records used by witnesses and counterexamples -/
/-- Base record shared by the chain-marking scenario (reference empty, same
source and day; only the title varies). -/
def dupBase (ti : String) : Alert :=
  { reference := "", title := ti, originator := "MHRA",
    issue_date := ⟨2025, 1, 5, 0, 0, 0⟩, status := "Active",
    alert_type := "Safety", source := "CAS", url := "https://example.org/a" }

/-- First record of the chain scenario (20 `a`s). -/
def dupC : Alert := Alert.postInit ⟨2025, 1, 6, 8, 0, 0⟩ (dupBase "aaaaaaaaaaaaaaaaaaaa")

/-- Second record (17 `a`s, 3 `b`s): similarity 85 to `dupC` and to `dupB`. -/
def dupA : Alert := Alert.postInit ⟨2025, 1, 6, 8, 0, 1⟩ (dupBase "aaaaaaaaaaaaaaaaabbb")

/-- Third record (14 `a`s, 6 `b`s): similarity 70 to `dupC`. -/
def dupB : Alert := Alert.postInit ⟨2025, 1, 6, 8, 0, 2⟩ (dupBase "aaaaaaaaaaaaaabbbbbb")

/-- Boundary pair, left record: 13-character title. -/
def w85a : Alert :=
  { reference := "", title := "aaaaaaaaaaaaa", originator := "o1",
    issue_date := ⟨2025, 2, 1, 0, 0, 0⟩, status := "s", alert_type := "t",
    source := "GOVUK", url := "u1", hash_id := some "h85a" }

/-- Boundary pair, right record: similarity to `w85a` is exactly 85. -/
def w85b : Alert := { w85a with title := "aaaaaaaaaaabb", hash_id := some "h85b" }

/-- Below-boundary pair, left record. -/
def w84a : Alert := { w85a with title := "abbbbbbbbb", hash_id := some "h84a" }

/-- Below-boundary pair, right record: similarity to `w84a` is exactly 84. -/
def w84b : Alert := { w85a with title := "cbbbbbbbb", hash_id := some "h84b" }

/-- Hash-determinism pair, first construction (no time-of-day match, all
non-identity fields different). -/
def c2a : Alert :=
  { reference := "REF-1", title := "Pump fault", originator := "MHRA",
    issue_date := ⟨2025, 3, 4, 9, 30, 0⟩, status := "Active",
    alert_type := "FSN", source := "CAS", url := "https://one.example",
    medical_specialty := some "Cardiology" }

/-- Hash-determinism pair, second construction: same four identity fields at
day granularity, everything else different. -/
def c2b : Alert :=
  { reference := "REF-1", title := "Pump fault", originator := "MHRA",
    issue_date := ⟨2025, 3, 4, 23, 59, 59⟩, status := "Archived",
    alert_type := "Alert", source := "GOVUK", url := "https://two.example",
    scraped_at := some ⟨2024, 1, 1, 0, 0, 0⟩ }

/-- A record already known to the store. -/
def pk : Alert :=
  { reference := "K-1", title := "Known", originator := "o",
    issue_date := ⟨2025, 1, 1, 0, 0, 0⟩, status := "s", alert_type := "t",
    source := "CAS", url := "u", hash_id := some "hk",
    scraped_at := some ⟨2025, 1, 1, 0, 0, 0⟩ }

/-- A fresh candidate with reference and hash. -/
def pc1 : Alert :=
  { reference := "N-1", title := "New one", originator := "o",
    issue_date := ⟨2025, 1, 2, 0, 0, 0⟩, status := "s", alert_type := "t",
    source := "CAS", url := "u", hash_id := some "h1" }

/-- A fresh candidate with empty reference. -/
def pc2 : Alert :=
  { reference := "", title := "New two", originator := "o",
    issue_date := ⟨2025, 1, 3, 0, 0, 0⟩, status := "s", alert_type := "t",
    source := "GOVUK", url := "u", hash_id := some "h2" }

/-- Round-trip witness record: valid day at midnight, set hash, set valid
`scraped_at`. -/
def rt : Alert :=
  { reference := "R-9", title := "Titled", originator := "Org",
    issue_date := ⟨2025, 6, 7, 0, 0, 0⟩, status := "Active",
    alert_type := "FSN", source := "CAS", url := "https://x",
    scraped_at := some ⟨2025, 6, 7, 10, 20, 30⟩, hash_id := some "deadbeef",
    attachments := some "f.pdf" }

/-- A row whose `Issue Date` is absent but whose `Scraped At` is malformed. -/
def badRow : Row := { scrapedAt := some "not a timestamp" }

/-- A row with every column absent. -/
def emptyRow : Row := {}

/-- A clock value: midnight 2025-01-01. -/
def d0101 : DateTime := ⟨2025, 1, 1, 0, 0, 0⟩

/-- A clock value one day later: midnight 2025-01-02. -/
def d0102 : DateTime := ⟨2025, 1, 2, 0, 0, 0⟩

/-- Reduction of `Option.bind` on a present value. -/
theorem optBind_some {α β : Type} (x : α) (f : α → Option β) :
    Option.bind (some x) f = f x := rfl

/-- `lev` satisfies the textbook recurrence on two non-empty words. -/
theorem lev_cons_cons (x y : Char) (xs ys : List Char) :
    lev (x :: xs) (y :: ys) =
      if x = y then lev xs ys
      else min (lev xs (y :: ys) + 1)
        (min (lev (x :: xs) ys + 1) (lev xs ys + 2)) := by
  rfl

/-- `lev` on an empty second word is the length of the first. -/
theorem lev_nil_right (xs : List Char) : lev xs [] = xs.length := by
  cases xs <;> rfl

/-- The threshold constant is the literal `0.85` of `settings.py`. -/
theorem DUPLICATE_THRESHOLD_eq : DUPLICATE_THRESHOLD = 0.85 := by
  unfold DUPLICATE_THRESHOLD
  norm_num

/-- `simAtLeast` is the source comparison
`title_similarity >= self.duplicate_threshold * 100`. -/
theorem simAtLeast_iff (t : ℚ) (s : Nat) :
    simAtLeast t s = true ↔ t * 100 ≤ (s : ℚ) := by
  unfold simAtLeast
  rw [Bool.not_eq_true']
  have hle : (Rat.blt (mkRat s 100) t = false) ↔ t ≤ mkRat s 100 := Iff.rfl
  rw [hle, Rat.mkRat_eq_divInt, Rat.divInt_eq_div]
  push_cast
  rw [le_div_iff₀ (by norm_num : (0:ℚ) < 100)]

/-! ## Supporting lemmas: decimal rendering and parsing round-trip -/
/-- Every character `padDigits` emits is a digit. -/
theorem isDig_digitChar (n : Nat) : isDig (digitChar n) = true := by
  unfold digitChar
  split <;> decide

/-- `charVal` inverts `digitChar` below 10. -/
theorem charVal_digitChar (n : Nat) (h : n < 10) : charVal (digitChar n) = n := by
  interval_cases n <;> decide

/-- Every character of a `padDigits` rendering is a digit. -/
theorem padDigits_isDig (k n : Nat) : ∀ c ∈ padDigits k n, isDig c = true := by
  induction k generalizing n with
  | zero => intro c hc; simp [padDigits] at hc
  | succ k ih =>
    intro c hc
    simp only [padDigits, List.mem_append, List.mem_singleton] at hc
    rcases hc with hc | hc
    · exact ih _ c hc
    · subst hc; exact isDig_digitChar _

/-- A `padDigits` rendering with positive width is non-empty. -/
theorem padDigits_ne_nil (k n : Nat) (h : 0 < k) : padDigits k n ≠ [] := by
  cases k with
  | zero => omega
  | succ k => simp [padDigits]

/-- Appending one digit multiplies the value by ten. -/
theorem digitsVal_append (xs : List Char) (c : Char) :
    digitsVal (xs ++ [c]) = digitsVal xs * 10 + charVal c := by
  unfold digitsVal
  rw [List.foldl_append]
  rfl

/-- `digitsVal` inverts `padDigits` modulo `10 ^ k`. -/
theorem digitsVal_padDigits (k n : Nat) : digitsVal (padDigits k n) = n % 10 ^ k := by
  induction k generalizing n with
  | zero => simp [padDigits, digitsVal, Nat.mod_one]
  | succ k ih =>
    rw [padDigits, digitsVal_append, ih, charVal_digitChar _ (Nat.mod_lt _ (by omega))]
    rw [pow_succ, Nat.mul_comm (10 ^ k) 10, Nat.mod_mul]
    ring

/-- `takeWhile`/`dropWhile` split a digit block at a non-digit separator. -/
theorem scanNat_append (xs : List Char) (y : Char) (rest : List Char)
    (hxs : ∀ c ∈ xs, isDig c = true) (hy : isDig y = false) :
    scanNat (xs ++ y :: rest) = (xs, y :: rest) := by
  unfold scanNat
  induction xs with
  | nil => simp [List.takeWhile_cons, List.dropWhile_cons, hy]
  | cons x xs ih =>
    have hx : isDig x = true := hxs x (by simp)
    have hxs' : ∀ c ∈ xs, isDig c = true := fun c hc => hxs c (by simp [hc])
    simp only [List.cons_append, List.takeWhile_cons, List.dropWhile_cons, hx]
    have := ih hxs'
    simp only [Prod.mk.injEq] at this
    simp [this.1, this.2]

/-- `takeWhile`/`dropWhile` consume an all-digit block entirely. -/
theorem scanNat_all (xs : List Char) (hxs : ∀ c ∈ xs, isDig c = true) :
    scanNat xs = (xs, []) := by
  unfold scanNat
  induction xs with
  | nil => simp
  | cons x xs ih =>
    have hx : isDig x = true := hxs x (by simp)
    have hxs' : ∀ c ∈ xs, isDig c = true := fun c hc => hxs c (by simp [hc])
    simp only [List.takeWhile_cons, List.dropWhile_cons, hx]
    have := ih hxs'
    simp only [Prod.mk.injEq] at this
    simp [this.1, this.2]

/-- Any month length is at most 31. -/
theorem daysInMonth_le (y m : Nat) : daysInMonth y m ≤ 31 := by
  unfold daysInMonth
  repeat' split
  all_goals omega

/-- A `padDigits` rendering has exactly the requested width. -/
theorem padDigits_length (k n : Nat) : (padDigits k n).length = k := by
  induction k generalizing n with
  | zero => rfl
  | succ k ih => simp [padDigits, ih]

/-- A digit character is not whitespace. -/
theorem isDig_not_isSpace (c : Char) (h : isDig c = true) : isSpace c = false := by
  unfold isDig at h
  rw [Bool.and_eq_true] at h
  have h1 : 48 ≤ c.toNat := of_decide_eq_true h.1
  have h2 : c.toNat ≤ 57 := of_decide_eq_true h.2
  clear h
  unfold isSpace
  rw [Bool.or_eq_false_iff, Bool.and_eq_false_iff]
  refine ⟨decide_eq_false ?_, Or.inr (decide_eq_false ?_)⟩
  · intro hcon
    omega
  · intro hcon
    omega

/-- `takeWhile`/`dropWhile` split a whitespace block at a non-space. -/
theorem scanSpace_append (xs : List Char) (y : Char) (rest : List Char)
    (hxs : ∀ c ∈ xs, isSpace c = true) (hy : isSpace y = false) :
    scanSpace (xs ++ y :: rest) = (xs, y :: rest) := by
  unfold scanSpace
  induction xs with
  | nil => simp [List.takeWhile_cons, List.dropWhile_cons, hy]
  | cons x xs ih =>
    have hx : isSpace x = true := hxs x (by simp)
    have hxs' : ∀ c ∈ xs, isSpace c = true := fun c hc => hxs c (by simp [hc])
    simp only [List.cons_append, List.takeWhile_cons, List.dropWhile_cons, hx]
    have hstep := ih hxs'
    simp only [Prod.mk.injEq] at hstep
    simp [hstep.1, hstep.2]

/-- The whitespace scan over a single blank followed by a digit field. -/
theorem scanSpace_space_digits (ds rest : List Char) (hne : ds ≠ [])
    (hds : ∀ c ∈ ds, isDig c = true) :
    scanSpace (' ' :: (ds ++ rest)) = ([' '], ds ++ rest) := by
  cases ds with
  | nil => exact absurd rfl hne
  | cons x ds' =>
    have hx : isSpace x = false := isDig_not_isSpace x (hds x (by simp))
    show scanSpace ([' '] ++ x :: (ds' ++ rest)) = ([' '], x :: (ds' ++ rest))
    refine scanSpace_append [' '] x (ds' ++ rest) ?_ hx
    intro c hc
    rw [List.mem_singleton] at hc
    subst hc
    decide

/-- Parsing inverts formatting for a day Python accepts: `strptime` of a
`strftime` rendering recovers the calendar day at midnight. -/
theorem parseYmd_formatDate (d : DateTime)
    (h : validDay d.year d.month d.day) :
    parseYmd (formatDate d) = some d.midnight := by
  obtain ⟨h1, h2, h3, h4, h5, h6⟩ := h
  have hd31 : d.day ≤ 31 := h6.trans (daysInMonth_le _ _)
  unfold parseYmd formatDate
  rw [show (⟨padDigits 4 d.year ++ '-' :: (padDigits 2 d.month ++ '-' ::
          padDigits 2 d.day)⟩ : String).data
      = padDigits 4 d.year ++ '-' :: (padDigits 2 d.month ++ '-' ::
          padDigits 2 d.day) from rfl]
  rw [scanNat_append _ _ _ (padDigits_isDig 4 d.year) (by decide)]
  simp only
  rw [scanNat_append _ _ _ (padDigits_isDig 2 d.month) (by decide)]
  simp only
  rw [scanNat_all _ (padDigits_isDig 2 d.day)]
  simp only
  rw [if_pos ?_]
  · rw [digitsVal_padDigits, digitsVal_padDigits, digitsVal_padDigits,
      Nat.mod_eq_of_lt (by omega), Nat.mod_eq_of_lt (by omega),
      Nat.mod_eq_of_lt (by omega)]
    rw [if_pos ⟨h1, h2, h3, h4, h5, h6⟩]
    rfl
  · exact ⟨trivial, padDigits_length 4 _, padDigits_ne_nil 2 _ (by omega),
      (padDigits_length 2 _).le, padDigits_ne_nil 2 _ (by omega),
      (padDigits_length 2 _).le⟩

/-- Parsing inverts formatting for a timestamp Python accepts. -/
theorem parseYmdHms_formatDateTime (t : DateTime) (h : validStamp t) :
    parseYmdHms (formatDateTime t) = some t := by
  obtain ⟨⟨h1, h2, h3, h4, h5, h6⟩, hh, hmi, hs⟩ := h
  have hd31 : t.day ≤ 31 := h6.trans (daysInMonth_le _ _)
  unfold parseYmdHms formatDateTime
  rw [show (⟨padDigits 4 t.year ++ '-' :: (padDigits 2 t.month ++ '-' ::
          (padDigits 2 t.day ++ ' ' :: (padDigits 2 t.hour ++ ':' ::
            (padDigits 2 t.minute ++ ':' :: padDigits 2 t.second))))⟩ : String).data
      = padDigits 4 t.year ++ '-' :: (padDigits 2 t.month ++ '-' ::
          (padDigits 2 t.day ++ ' ' :: (padDigits 2 t.hour ++ ':' ::
            (padDigits 2 t.minute ++ ':' :: padDigits 2 t.second)))) from rfl]
  rw [scanNat_append _ _ _ (padDigits_isDig 4 t.year) (by decide)]
  simp only
  rw [scanNat_append _ _ _ (padDigits_isDig 2 t.month) (by decide)]
  simp only
  rw [scanNat_append _ _ _ (padDigits_isDig 2 t.day) (by decide)]
  simp only
  rw [scanSpace_space_digits _ _ (padDigits_ne_nil 2 _ (by omega))
    (padDigits_isDig 2 t.hour)]
  simp only
  rw [scanNat_append _ _ _ (padDigits_isDig 2 t.hour) (by decide)]
  simp only
  rw [scanNat_append _ _ _ (padDigits_isDig 2 t.minute) (by decide)]
  simp only
  rw [scanNat_all _ (padDigits_isDig 2 t.second)]
  simp only
  rw [if_pos ?_]
  · rw [show ∀ a b c d e f : Nat, (⟨a, b, c, d, e, f⟩ : DateTime).year = a from
      fun _ _ _ _ _ _ => rfl] at *
    simp only [digitsVal_padDigits]
    rw [Nat.mod_eq_of_lt (by omega), Nat.mod_eq_of_lt (by omega),
      Nat.mod_eq_of_lt (by omega), Nat.mod_eq_of_lt (by omega),
      Nat.mod_eq_of_lt (by omega), Nat.mod_eq_of_lt (by omega)]
    rw [if_pos ⟨⟨h1, h2, h3, h4, h5, h6⟩, hh, hmi, hs⟩]
  · refine ⟨trivial, padDigits_length 4 _, padDigits_ne_nil 2 _ (by omega),
      (padDigits_length 2 _).le, padDigits_ne_nil 2 _ (by omega),
      (padDigits_length 2 _).le, List.cons_ne_nil ' ' [],
      padDigits_ne_nil 2 _ (by omega), (padDigits_length 2 _).le,
      padDigits_ne_nil 2 _ (by omega), (padDigits_length 2 _).le,
      padDigits_ne_nil 2 _ (by omega), (padDigits_length 2 _).le⟩

/-! ## Supporting lemmas: symmetry of the detector -/
/-- The weighted Levenshtein distance is symmetric. -/
theorem lev_comm (xs ys : List Char) : lev xs ys = lev ys xs := by
  cases xs with
  | nil => rw [lev_nil_right]; rfl
  | cons x xs =>
    cases ys with
    | nil => rw [lev_nil_right]; rfl
    | cons y ys =>
      rw [lev_cons_cons, lev_cons_cons]
      by_cases h : x = y
      · subst h
        rw [if_pos rfl, if_pos rfl, lev_comm xs ys]
      · rw [if_neg h, if_neg (fun hyx => h hyx.symm)]
        rw [show lev ys (x :: xs) = lev (x :: xs) ys from (lev_comm (x :: xs) ys).symm,
          show lev (y :: ys) xs = lev xs (y :: ys) from (lev_comm xs (y :: ys)).symm,
          show lev ys xs = lev xs ys from (lev_comm xs ys).symm]
        exact min_left_comm _ _ _
termination_by xs.length + ys.length
decreasing_by
  all_goals simp only [List.length_cons]
  all_goals omega

/-- The fuzzy similarity ratio is symmetric. -/
theorem fuzzRatio_comm (s1 s2 : String) : fuzzRatio s1 s2 = fuzzRatio s2 s1 := by
  unfold fuzzRatio
  rw [Nat.add_comm s2.length s1.length, lev_comm s2.data s1.data]

/-- Boolean equality test is symmetric (lawful instances). -/
theorem beqComm {α : Type} [BEq α] [LawfulBEq α] (x y : α) : (x == y) = (y == x) := by
  by_cases h : x = y
  · subst h; rfl
  · rw [show (x == y) = false from beq_eq_false_iff_ne.mpr h,
      show (y == x) = false from beq_eq_false_iff_ne.mpr (Ne.symm h)]

/-- The detector's if-chain is the disjunction of its three tests. -/
theorem is_duplicate_eq_or (t : ℚ) (a b : Alert) :
    is_duplicate t a b =
      ((a.reference != "" && a.reference == b.reference) ||
       (a.source == b.source
          && simAtLeast t (fuzzRatio (strLower a.title) (strLower b.title))
          && a.issue_date.date == b.issue_date.date) ||
       (a.hashTruthy && a.hash_id == b.hash_id)) := by
  unfold is_duplicate
  cases h1 : (a.reference != "" && a.reference == b.reference) <;>
    cases h2 : (a.source == b.source
        && simAtLeast t (fuzzRatio (strLower a.title) (strLower b.title))
        && a.issue_date.date == b.issue_date.date) <;>
      cases h3 : (a.hashTruthy && a.hash_id == b.hash_id) <;>
        simp [h1, h2, h3]

/-- The reference test is symmetric. -/
theorem refCond_comm (s t : String) :
    ((s != "") && (s == t)) = ((t != "") && (t == s)) := by
  by_cases h : s = t
  · subst h; rfl
  · rw [show (s == t) = false from beq_eq_false_iff_ne.mpr h,
      show (t == s) = false from beq_eq_false_iff_ne.mpr (Ne.symm h),
      Bool.and_false, Bool.and_false]

/-- The fuzzy test is symmetric. -/
theorem fuzzyCond_comm (t : ℚ) (a b : Alert) :
    (a.source == b.source
       && simAtLeast t (fuzzRatio (strLower a.title) (strLower b.title))
       && a.issue_date.date == b.issue_date.date) =
    (b.source == a.source
       && simAtLeast t (fuzzRatio (strLower b.title) (strLower a.title))
       && b.issue_date.date == a.issue_date.date) := by
  rw [fuzzRatio_comm, beqComm a.source b.source, beqComm a.issue_date.date b.issue_date.date]

/-- The hash test is symmetric. -/
theorem hashCond_comm (a b : Alert) :
    (a.hashTruthy && a.hash_id == b.hash_id) =
    (b.hashTruthy && b.hash_id == a.hash_id) := by
  by_cases h : a.hash_id = b.hash_id
  · unfold Alert.hashTruthy
    rw [h]
  · rw [show (a.hash_id == b.hash_id) = false from beq_eq_false_iff_ne.mpr h,
      show (b.hash_id == a.hash_id) = false from beq_eq_false_iff_ne.mpr (Ne.symm h),
      Bool.and_false, Bool.and_false]

/-- `hashTruthy` agrees with the non-empty-hash reading. -/
theorem hashTruthy_iff (a : Alert) : a.hashTruthy = true ↔ a.hash_id.getD "" ≠ "" := by
  unfold Alert.hashTruthy optTruthy
  cases a.hash_id <;> simp

/-- The detector decides exactly the disjunction of the three spec rules. -/
theorem is_duplicate_iff (t : ℚ) (a b : Alert) :
    is_duplicate t a b = true ↔ refRule a b ∨ fuzzyRule t a b ∨ hashRule a b := by
  rw [is_duplicate_eq_or]
  unfold refRule fuzzyRule hashRule
  simp only [Bool.or_eq_true, Bool.and_eq_true, bne_iff_ne, beq_iff_eq,
    simAtLeast_iff, hashTruthy_iff, and_assoc]
  tauto

/-- The exact pass returns a subsequence of its input. -/
theorem exactPass_sublist (l : List Alert) :
    ∀ R H, List.Sublist (exactPass R H l) l := by
  induction l with
  | nil => intro R H; simp [exactPass]
  | cons a rest ih =>
    intro R H
    unfold exactPass
    split
    · exact (ih _ _).trans (List.sublist_cons_self a rest)
    · split
      · exact (ih _ _).trans (List.sublist_cons_self a rest)
      · exact (ih _ _).cons₂ a

/-- Records kept by the exact pass are not in the incoming seen sets. -/
theorem exactPass_not_seen (l : List Alert) :
    ∀ R H b, b ∈ exactPass R H l →
      (b.reference ≠ "" → b.reference ∉ R) ∧ (b.hashTruthy = true → b.hashStr ∉ H) := by
  induction l with
  | nil => intro R H b hb; simp [exactPass] at hb
  | cons a rest ih =>
    intro R H b hb
    unfold exactPass at hb
    split at hb
    · exact ih _ _ b hb
    · rename_i hc1
      split at hb
      · exact ih _ _ b hb
      · rename_i hc2
        rcases List.mem_cons.1 hb with rfl | hb'
        · constructor
          · intro href hmem
            exact hc1 (by rw [Bool.and_eq_true]; exact ⟨bne_iff_ne.2 href, List.elem_iff.2 hmem⟩)
          · intro htr hmem
            exact hc2 (by rw [Bool.and_eq_true]; exact ⟨htr, List.elem_iff.2 hmem⟩)
        · have hrec := ih _ _ b hb'
          refine ⟨fun href => ?_, fun htr => ?_⟩
          · have h2 := hrec.1 href
            intro hmem
            apply h2
            split
            · exact List.mem_cons_of_mem _ hmem
            · exact hmem
          · have h2 := hrec.2 htr
            intro hmem
            apply h2
            split
            · exact List.mem_cons_of_mem _ hmem
            · exact hmem

/-- Distinct kept records of the exact pass share no non-empty reference and
no truthy hash. -/
theorem exactPass_pairwise (l : List Alert) :
    ∀ R H, List.Pairwise exactDistinct (exactPass R H l) := by
  induction l with
  | nil => intro R H; simp [exactPass]
  | cons a rest ih =>
    intro R H
    unfold exactPass
    split
    · exact ih _ _
    · split
      · exact ih _ _
      · refine List.Pairwise.cons ?_ (ih _ _)
        intro b hb
        have hns := exactPass_not_seen rest _ _ b hb
        constructor
        · intro hbref haref heq
          have hnm := hns.1 hbref
          rw [if_pos (bne_iff_ne.2 haref)] at hnm
          exact hnm (by rw [← heq]; exact List.mem_cons_self _ _)
        · intro hbtr hatr hseq
          have hnm := hns.2 hbtr
          rw [if_pos hatr] at hnm
          exact hnm (by rw [← hseq]; exact List.mem_cons_self _ _)

/-- The exact pass keeps a list that is already pairwise exact-distinct and
disjoint from the seen sets unchanged. -/
theorem exactPass_id (l : List Alert) :
    ∀ R H,
      (∀ b ∈ l, (b.reference ≠ "" → b.reference ∉ R) ∧
        (b.hashTruthy = true → b.hashStr ∉ H)) →
      List.Pairwise exactDistinct l →
      exactPass R H l = l := by
  induction l with
  | nil => intro R H _ _; rfl
  | cons a rest ih =>
    intro R H hfresh hpw
    have ha := hfresh a (List.mem_cons_self _ _)
    unfold exactPass
    rw [if_neg ?_, if_neg ?_]
    · rw [ih _ _ ?_ (List.Pairwise.of_cons hpw)]
      intro b hb
      have hbf := hfresh b (List.mem_cons_of_mem _ hb)
      have hab := (List.pairwise_cons.1 hpw).1 b hb
      refine ⟨fun hbref => ?_, fun hbtr => ?_⟩
      · split
        · rename_i hacond
          intro hmem
          rcases List.mem_cons.1 hmem with heq | hmem'
          · exact hab.1 hbref (bne_iff_ne.1 hacond) heq.symm
          · exact hbf.1 hbref hmem'
        · exact hbf.1 hbref
      · split
        · rename_i hacond
          intro hmem
          rcases List.mem_cons.1 hmem with heq | hmem'
          · exact hab.2 hbtr hacond heq.symm
          · exact hbf.2 hbtr hmem'
        · exact hbf.2 hbtr
    · intro hcond
      rw [Bool.and_eq_true] at hcond
      exact ha.2 hcond.1 (List.elem_iff.1 hcond.2)
    · intro hcond
      rw [Bool.and_eq_true] at hcond
      exact ha.1 (bne_iff_ne.1 hcond.1) (List.elem_iff.1 hcond.2)

/-- The fuzzy pass returns a subsequence of its input. -/
theorem fuzzyPassAux_sublist (t : ℚ) (l : List Alert) :
    ∀ kept, List.Sublist (fuzzyPassAux t kept l) l := by
  induction l with
  | nil => intro kept; simp [fuzzyPassAux]
  | cons a rest ih =>
    intro kept
    unfold fuzzyPassAux
    split
    · exact (ih _).trans (List.sublist_cons_self a rest)
    · exact (ih _).cons₂ a

/-- Nothing the fuzzy pass keeps matches a previously kept record. -/
theorem fuzzyPassAux_not_matched (t : ℚ) (l : List Alert) :
    ∀ kept b, b ∈ fuzzyPassAux t kept l →
      ∀ k ∈ kept, is_duplicate t k b = false := by
  induction l with
  | nil => intro kept b hb; simp [fuzzyPassAux] at hb
  | cons a rest ih =>
    intro kept b hb
    unfold fuzzyPassAux at hb
    split at hb
    · exact ih _ b hb
    · rename_i hany
      rcases List.mem_cons.1 hb with rfl | hb'
      · intro k hk
        rw [← Bool.not_eq_true]
        intro hdup
        exact hany (List.any_eq_true.2 ⟨k, hk, hdup⟩)
      · intro k hk
        exact ih _ b hb' k (List.mem_append_left _ hk)

/-- The fuzzy pass output is pairwise non-duplicate (earlier record as the
left argument). -/
theorem fuzzyPassAux_pairwise (t : ℚ) (l : List Alert) :
    ∀ kept, List.Pairwise (fun x y => is_duplicate t x y = false) (fuzzyPassAux t kept l) := by
  induction l with
  | nil => intro kept; simp [fuzzyPassAux]
  | cons a rest ih =>
    intro kept
    unfold fuzzyPassAux
    split
    · exact ih _
    · refine List.Pairwise.cons ?_ (ih _)
      intro b hb
      exact fuzzyPassAux_not_matched t rest _ b hb a
        (List.mem_append_right _ (List.mem_cons_self _ _))

/-- A record the fuzzy pass drops is `is_duplicate`-matched by some record of
the initial marking state or of the output. -/
theorem fuzzyPassAux_removed (t : ℚ) (l : List Alert) :
    ∀ kept r, r ∈ l → r ∉ fuzzyPassAux t kept l →
      ∃ k, (k ∈ kept ∨ k ∈ fuzzyPassAux t kept l) ∧ is_duplicate t k r = true := by
  induction l with
  | nil => intro kept r hr; simp at hr
  | cons a rest ih =>
    intro kept r hr hout
    unfold fuzzyPassAux at hout ⊢
    split at hout
    · rename_i hany
      rcases List.mem_cons.1 hr with rfl | hr'
      · obtain ⟨k, hk, hdup⟩ := List.any_eq_true.1 hany
        exact ⟨k, Or.inl hk, hdup⟩
      · rw [if_pos ?_]
        · exact ih _ r hr' hout
        · exact hany
    · rename_i hany
      have hra : r ≠ a := fun hcon => hout (hcon ▸ List.mem_cons_self _ _)
      have hr' : r ∈ rest := (List.mem_cons.1 hr).resolve_left hra
      have hout' : r ∉ fuzzyPassAux t (kept ++ [a]) rest :=
        fun hcon => hout (List.mem_cons_of_mem _ hcon)
      obtain ⟨k, hkmem, hdup⟩ := ih _ r hr' hout'
      rw [if_neg ?_]
      · refine ⟨k, ?_, hdup⟩
        rcases hkmem with hk | hk
        · rcases List.mem_append.1 hk with hk' | hk'
          · exact Or.inl hk'
          · rw [List.mem_singleton.1 hk']
            exact Or.inr (List.mem_cons_self _ _)
        · exact Or.inr (List.mem_cons_of_mem _ hk)
      · exact hany

/-- The fuzzy pass keeps a pairwise non-duplicate list not matched by the
marking state unchanged. -/
theorem fuzzyPassAux_id (t : ℚ) (l : List Alert) :
    ∀ kept,
      List.Pairwise (fun x y => is_duplicate t x y = false) l →
      (∀ b ∈ l, ∀ k ∈ kept, is_duplicate t k b = false) →
      fuzzyPassAux t kept l = l := by
  induction l with
  | nil => intro kept _ _; rfl
  | cons a rest ih =>
    intro kept hpw hfresh
    unfold fuzzyPassAux
    rw [if_neg ?_]
    · rw [ih _ (List.Pairwise.of_cons hpw) ?_]
      intro b hb k hk
      rcases List.mem_append.1 hk with hk' | hk'
      · exact hfresh b (List.mem_cons_of_mem _ hb) k hk'
      · rw [List.mem_singleton.1 hk']
        exact (List.pairwise_cons.1 hpw).1 b hb
    · intro hany
      obtain ⟨k, hk, hdup⟩ := List.any_eq_true.1 hany
      rw [hfresh a (List.mem_cons_self _ _) k hk] at hdup
      exact Bool.false_ne_true hdup

/-- The selection loop returns a subsequence of the candidate list. -/
theorem selectNew_sublist (l : List Alert) :
    ∀ H R, List.Sublist (selectNew H R l) l := by
  induction l with
  | nil => intro H R; simp [selectNew]
  | cons a rest ih =>
    intro H R
    unfold selectNew
    split
    · exact (ih _ _).trans (List.sublist_cons_self a rest)
    · split
      · exact (ih _ _).trans (List.sublist_cons_self a rest)
      · exact (ih _ _).cons₂ a

/-- `hashStr` is truthy-non-empty exactly when `hashTruthy` holds. -/
theorem hashStr_ne_iff (a : Alert) : a.hashStr ≠ "" ↔ a.hashTruthy = true := by
  rw [hashTruthy_iff]
  exact Iff.rfl

/-- Unfolding equation for the selection loop. -/
theorem selectNew_cons (H R : List String) (a : Alert) (rest : List Alert) :
    selectNew H R (a :: rest) =
      if (a.hashTruthy && H.contains a.hashStr) = true then selectNew H R rest
      else if (a.reference != "" && R.contains a.reference) = true then selectNew H R rest
      else a :: selectNew
        (if a.hashTruthy = true then a.hashStr :: H else H)
        (if (a.reference != "") = true then a.reference :: R else R) rest := rfl

/-- Unfolding equation for the spec-side planner. -/
theorem planSpec_cons (H R : List String) (a : Alert) (rest : List Alert) :
    planSpec H R (a :: rest) =
      if (a.hash_id.getD "" ≠ "" → a.hash_id.getD "" ∉ H) ∧
         (a.reference ≠ "" → a.reference ∉ R) then
        a :: planSpec
          (if a.hash_id.getD "" ≠ "" then a.hash_id.getD "" :: H else H)
          (if a.reference ≠ "" then a.reference :: R else R) rest
      else planSpec H R rest := rfl

/-- The selection loop is the spec-side planner. -/
theorem selectNew_eq_planSpec (l : List Alert) :
    ∀ H R, selectNew H R l = planSpec H R l := by
  induction l with
  | nil => intro H R; rfl
  | cons a rest ih =>
    intro H R
    rw [selectNew_cons, planSpec_cons]
    by_cases hc1 : (a.hashTruthy && H.contains a.hashStr) = true
    · rw [if_pos hc1]
      rw [Bool.and_eq_true] at hc1
      have hnc : ¬((a.hash_id.getD "" ≠ "" → a.hash_id.getD "" ∉ H) ∧
          (a.reference ≠ "" → a.reference ∉ R)) := fun hacc =>
        (hacc.1 ((hashStr_ne_iff a).2 hc1.1) (List.elem_iff.1 hc1.2)).elim
      rw [if_neg hnc]
      exact ih _ _
    · by_cases hc2 : (a.reference != "" && R.contains a.reference) = true
      · rw [if_neg hc1, if_pos hc2]
        rw [Bool.and_eq_true] at hc2
        have hnc : ¬((a.hash_id.getD "" ≠ "" → a.hash_id.getD "" ∉ H) ∧
            (a.reference ≠ "" → a.reference ∉ R)) := fun hacc =>
          (hacc.2 (bne_iff_ne.1 hc2.1) (List.elem_iff.1 hc2.2)).elim
        rw [if_neg hnc]
        exact ih _ _
      · have hH : (if a.hashTruthy = true then a.hashStr :: H else H)
            = (if a.hash_id.getD "" ≠ "" then a.hash_id.getD "" :: H else H) := by
          by_cases htr : a.hashTruthy = true
          · rw [if_pos htr, if_pos ((hashTruthy_iff a).1 htr)]
            rfl
          · rw [if_neg htr, if_neg (fun hne => htr ((hashTruthy_iff a).2 hne))]
        have hR : (if (a.reference != "") = true then a.reference :: R else R)
            = (if a.reference ≠ "" then a.reference :: R else R) := by
          by_cases href : a.reference = ""
          · rw [if_neg (by rw [bne_iff_ne]; exact fun hcon => hcon href),
              if_neg (fun hcon => hcon href)]
          · rw [if_pos (bne_iff_ne.2 href), if_pos href]
        have hCond : (a.hash_id.getD "" ≠ "" → a.hash_id.getD "" ∉ H) ∧
            (a.reference ≠ "" → a.reference ∉ R) := by
          constructor
          · intro hne hmem
            exact hc1 (by rw [Bool.and_eq_true]
                          exact ⟨(hashTruthy_iff a).2 hne, List.elem_iff.2 hmem⟩)
          · intro hne hmem
            exact hc2 (by rw [Bool.and_eq_true]
                          exact ⟨bne_iff_ne.2 hne, List.elem_iff.2 hmem⟩)
        rw [if_neg hc1, if_neg hc2, hH, hR, ih _ _, if_pos hCond]

/-- The selection loop coincides with the engine's exact pass (the reference
check and the hash check commute). -/
theorem selectNew_eq_exactPass (l : List Alert) :
    ∀ H R, selectNew H R l = exactPass R H l := by
  induction l with
  | nil => intro H R; rfl
  | cons a rest ih =>
    intro H R
    unfold selectNew exactPass
    by_cases hc1 : (a.hashTruthy && H.contains a.hashStr) = true
    · by_cases hc2 : (a.reference != "" && R.contains a.reference) = true
      · rw [if_pos hc1, if_pos hc2]
        exact ih _ _
      · rw [if_pos hc1, if_neg hc2, if_pos hc1]
        exact ih _ _
    · by_cases hc2 : (a.reference != "" && R.contains a.reference) = true
      · rw [if_neg hc1, if_pos hc2, if_pos hc2]
        exact ih _ _
      · rw [if_neg hc1, if_neg hc2, if_neg hc2, if_neg hc1]
        rw [ih _ _]

/-- Kept candidates of the selection loop come from the candidate list. -/
theorem selectNew_mem (l : List Alert) :
    ∀ H R b, b ∈ selectNew H R l → b ∈ l :=
  fun H R b hb => (selectNew_sublist l H R).mem hb

/-- A second planner run against sets that absorb everything the first run
accepted (and contain the original sets) accepts nothing, provided every
candidate has a truthy hash. -/
theorem selectNew_again_nil (l : List Alert) :
    ∀ H R H' R',
      (∀ s ∈ H, s ∈ H') → (∀ s ∈ R, s ∈ R') →
      (∀ c ∈ l, c.hashTruthy = true) →
      (∀ c ∈ selectNew H R l,
        c.hashStr ∈ H' ∧ (c.reference ≠ "" → c.reference ∈ R')) →
      selectNew H' R' l = [] := by
  induction l with
  | nil => intro H R H' R' _ _ _ _; rfl
  | cons a rest ih =>
    intro H R H' R' hHs hRs htr hacc
    have hatr : a.hashTruthy = true := htr a (List.mem_cons_self _ _)
    by_cases hc1 : (a.hashTruthy && H.contains a.hashStr) = true
    · -- skipped by hash in the first run; also skipped in the second
      have hmem' : a.hashStr ∈ H' := by
        rw [Bool.and_eq_true] at hc1
        exact hHs _ (List.elem_iff.1 hc1.2)
      rw [selectNew_cons,
        if_pos (by rw [Bool.and_eq_true]; exact ⟨hatr, List.elem_iff.2 hmem'⟩)]
      refine ih H R H' R' hHs hRs (fun c hc => htr c (List.mem_cons_of_mem _ hc)) ?_
      intro c hc
      refine hacc c ?_
      rw [selectNew_cons, if_pos hc1]
      exact hc
    · by_cases hc2 : (a.reference != "" && R.contains a.reference) = true
      · -- skipped by reference in the first run
        have hmem' : a.reference ∈ R' := by
          rw [Bool.and_eq_true] at hc2
          exact hRs _ (List.elem_iff.1 hc2.2)
        have hskip2 : selectNew H' R' (a :: rest) = selectNew H' R' rest := by
          rw [selectNew_cons]
          by_cases hph : (a.hashTruthy && H'.contains a.hashStr) = true
          · rw [if_pos hph]
          · rw [if_neg hph, if_pos (by rw [Bool.and_eq_true] at hc2 ⊢
                                       exact ⟨hc2.1, List.elem_iff.2 hmem'⟩)]
        rw [hskip2]
        refine ih H R H' R' hHs hRs (fun c hc => htr c (List.mem_cons_of_mem _ hc)) ?_
        intro c hc
        refine hacc c ?_
        rw [selectNew_cons, if_neg hc1, if_pos hc2]
        exact hc
      · -- accepted by the first run, hence known to the second
        have hsel : selectNew H R (a :: rest)
            = a :: selectNew (if a.hashTruthy = true then a.hashStr :: H else H)
                (if (a.reference != "") = true then a.reference :: R else R) rest := by
          rw [selectNew_cons, if_neg hc1, if_neg hc2]
        have haacc := hacc a (by rw [hsel]; exact List.mem_cons_self _ _)
        rw [selectNew_cons,
          if_pos (by rw [Bool.and_eq_true]; exact ⟨hatr, List.elem_iff.2 haacc.1⟩)]
        refine ih (if a.hashTruthy = true then a.hashStr :: H else H)
          (if (a.reference != "") = true then a.reference :: R else R) H' R' ?_ ?_
          (fun c hc => htr c (List.mem_cons_of_mem _ hc)) ?_
        · intro s hs
          rw [if_pos hatr] at hs
          rcases List.mem_cons.1 hs with rfl | hs'
          · exact haacc.1
          · exact hHs _ hs'
        · intro s hs
          by_cases href : (a.reference != "") = true
          · rw [if_pos href] at hs
            rcases List.mem_cons.1 hs with rfl | hs'
            · exact haacc.2 (bne_iff_ne.1 href)
            · exact hRs _ hs'
          · rw [if_neg href] at hs
            exact hRs _ hs
        · intro c hc
          refine hacc c ?_
          rw [hsel]
          exact List.mem_cons_of_mem _ hc

/-! ## Supporting lemmas: record construction and serialization -/
/-- `strftime` output depends only on the calendar day. -/
theorem formatDate_congr (d1 d2 : DateTime) (h : d1.date = d2.date) :
    formatDate d1 = formatDate d2 := by
  unfold DateTime.date at h
  rw [Prod.mk.injEq, Prod.mk.injEq] at h
  unfold formatDate
  rw [h.1, h.2.1, h.2.2]

/-- A formatted date is never the empty string. -/
theorem formatDate_ne_empty (d : DateTime) : formatDate d ≠ "" := by
  unfold formatDate
  intro hcon
  have hdata : padDigits 4 d.year ++ '-' :: (padDigits 2 d.month ++ '-' ::
      padDigits 2 d.day) = ([] : List Char) := congrArg String.data hcon
  simp at hdata

/-- A formatted timestamp is never the empty string. -/
theorem formatDateTime_ne_empty (t : DateTime) : formatDateTime t ≠ "" := by
  unfold formatDateTime
  intro hcon
  have hdata : padDigits 4 t.year ++ '-' :: (padDigits 2 t.month ++ '-' ::
      (padDigits 2 t.day ++ ' ' :: (padDigits 2 t.hour ++ ':' ::
        (padDigits 2 t.minute ++ ':' :: padDigits 2 t.second))))
      = ([] : List Char) := congrArg String.data hcon
  simp at hdata

/-- `__post_init__` on a record with no hash: the hash is the MD5 of the four
identity fields, with `issue_date` rendered at day granularity. -/
theorem postInit_hash (now : DateTime) (a : Alert) (h : a.hash_id = none) :
    (Alert.postInit now a).hash_id =
      some (md5hex (a.reference ++ "|" ++ a.title ++ "|" ++ a.originator ++ "|" ++
        formatDate a.issue_date)) := by
  unfold Alert.postInit Alert.generate_hash
  split
  · simp [h]
  · simp [h]

/-- `__post_init__` never changes a record whose `scraped_at` and `hash_id`
are already set. -/
theorem postInit_noop (now : DateTime) (a : Alert)
    (hs : a.scraped_at ≠ none) (hh : a.hash_id ≠ none) :
    Alert.postInit now a = a := by
  unfold Alert.postInit
  rw [if_neg hs, if_neg hh]

/-- Known-hash sets distribute over list append. -/
theorem knownHashes_append (k1 k2 : List Alert) :
    knownHashes (k1 ++ k2) = knownHashes k1 ++ knownHashes k2 := by
  unfold knownHashes
  rw [List.filter_append, List.map_append]

/-- Known-reference sets distribute over list append. -/
theorem knownRefs_append (k1 k2 : List Alert) :
    knownRefs (k1 ++ k2) = knownRefs k1 ++ knownRefs k2 := by
  unfold knownRefs
  rw [List.filter_append, List.map_append]

/-- A truthy hash of a listed alert is in the known-hash set. -/
theorem hashStr_mem_knownHashes (l : List Alert) (a : Alert)
    (ha : a ∈ l) (htr : a.hashTruthy = true) : a.hashStr ∈ knownHashes l := by
  unfold knownHashes
  exact List.mem_map_of_mem _ (List.mem_filter.2 ⟨ha, htr⟩)

/-- A non-empty reference of a listed alert is in the known-reference set. -/
theorem ref_mem_knownRefs (l : List Alert) (a : Alert)
    (ha : a ∈ l) (hne : a.reference ≠ "") : a.reference ∈ knownRefs l := by
  unfold knownRefs
  exact List.mem_map_of_mem _ (List.mem_filter.2 ⟨ha, bne_iff_ne.2 hne⟩)

/-- `__post_init__` does not touch `issue_date`. -/
theorem postInit_issue_date (now : DateTime) (r : Alert) :
    (Alert.postInit now r).issue_date = r.issue_date := by
  unfold Alert.postInit
  split <;> (dsimp only; split <;> rfl)

/-- `__post_init__` keeps an already-set `scraped_at`. -/
theorem postInit_scraped_at (now : DateTime) (r : Alert) (t : DateTime)
    (h : r.scraped_at = some t) : (Alert.postInit now r).scraped_at = some t := by
  have ha1 : (if r.scraped_at = none then { r with scraped_at := some now } else r) = r := by
    rw [if_neg (show r.scraped_at ≠ none from by
      rw [h]; exact fun hcon => Option.noConfusion hcon)]
  unfold Alert.postInit
  dsimp only
  rw [ha1]
  split <;> exact h

/-- `__post_init__` keeps an already-set `hash_id`. -/
theorem postInit_hash_id_of_set (now : DateTime) (r : Alert) (h : r.hash_id ≠ none) :
    (Alert.postInit now r).hash_id = r.hash_id := by
  unfold Alert.postInit
  split <;> (dsimp only; rw [if_neg h])

/-- `__post_init__` does not touch `reference`. -/
theorem postInit_reference (now : DateTime) (r : Alert) :
    (Alert.postInit now r).reference = r.reference := by
  unfold Alert.postInit
  split <;> (dsimp only; split <;> rfl)

/-- `__post_init__` does not touch `title`. -/
theorem postInit_title (now : DateTime) (r : Alert) :
    (Alert.postInit now r).title = r.title := by
  unfold Alert.postInit
  split <;> (dsimp only; split <;> rfl)

/-- `__post_init__` does not touch `originator`. -/
theorem postInit_originator (now : DateTime) (r : Alert) :
    (Alert.postInit now r).originator = r.originator := by
  unfold Alert.postInit
  split <;> (dsimp only; split <;> rfl)

/-- `__post_init__` does not touch `status`. -/
theorem postInit_status (now : DateTime) (r : Alert) :
    (Alert.postInit now r).status = r.status := by
  unfold Alert.postInit
  split <;> (dsimp only; split <;> rfl)

/-- `__post_init__` does not touch `alert_type`. -/
theorem postInit_alert_type (now : DateTime) (r : Alert) :
    (Alert.postInit now r).alert_type = r.alert_type := by
  unfold Alert.postInit
  split <;> (dsimp only; split <;> rfl)

/-- `__post_init__` does not touch `source`. -/
theorem postInit_source (now : DateTime) (r : Alert) :
    (Alert.postInit now r).source = r.source := by
  unfold Alert.postInit
  split <;> (dsimp only; split <;> rfl)

/-- `__post_init__` does not touch `url`. -/
theorem postInit_url (now : DateTime) (r : Alert) :
    (Alert.postInit now r).url = r.url := by
  unfold Alert.postInit
  split <;> (dsimp only; split <;> rfl)

/-! ## Claim theorems -/
/-- C1: `is_duplicate` returns true exactly when one of the three rules
holds — non-empty equal references; or equal sources, lower-cased title
similarity at least `duplicate_threshold * 100`, and same calendar day; or
non-empty equal hashes.  In particular, at the default threshold `0.85`,
same-source same-day records with similarity exactly 85 are duplicates, and
with similarity 84 they are not (when neither the reference rule nor the hash
rule applies, which rule 2 presumes). -/
theorem is_duplicate_decision_rules :
    (∀ (t : ℚ) (a b : Alert),
      is_duplicate t a b = true ↔ refRule a b ∨ fuzzyRule t a b ∨ hashRule a b) ∧
    (∀ a b : Alert, a.source = b.source →
      fuzzRatio (strLower a.title) (strLower b.title) = 85 →
      a.issue_date.date = b.issue_date.date →
      is_duplicate DUPLICATE_THRESHOLD a b = true) ∧
    (∀ a b : Alert, ¬ refRule a b → ¬ hashRule a b → a.source = b.source →
      fuzzRatio (strLower a.title) (strLower b.title) = 84 →
      a.issue_date.date = b.issue_date.date →
      is_duplicate DUPLICATE_THRESHOLD a b = false) := by
  refine ⟨is_duplicate_iff, fun a b hs hr hd => ?_, fun a b hnref hnhash hs hr hd => ?_⟩
  · rw [is_duplicate_iff]
    refine Or.inr (Or.inl ⟨hs, ?_, hd⟩)
    rw [hr, DUPLICATE_THRESHOLD_eq]
    norm_num
  · rw [← Bool.not_eq_true, is_duplicate_iff]
    rintro (hcon | hcon | hcon)
    · exact hnref hcon
    · have hbad := hcon.2.1
      rw [hr, DUPLICATE_THRESHOLD_eq] at hbad
      norm_num at hbad
    · exact hnhash hcon

/-- Witness for C1: a concrete same-source same-day pair at similarity 85 is
a duplicate; one at similarity 84 (no reference or hash match) is not. -/
theorem is_duplicate_decision_rules_witness :
    is_duplicate DUPLICATE_THRESHOLD w85a w85b = true ∧
    is_duplicate DUPLICATE_THRESHOLD w84a w84b = false :=
  ⟨is_duplicate_decision_rules.2.1 w85a w85b (by decide) (by decide) (by decide),
   is_duplicate_decision_rules.2.2 w84a w84b (by decide) (by decide) (by decide)
     (by decide) (by decide)⟩

/-- C2: the identity hash assigned at construction is a pure function of
`(reference, title, originator, issue_date-as-day)` — it is the MD5 of those
fields joined by `|` with the date rendered `YYYY-MM-DD`, so two
constructions agreeing on them (whatever their other fields, `scraped_at`
values, or construction times) receive the same hash. -/
theorem generate_hash_deterministic (a1 a2 : Alert) (n1 n2 : DateTime)
    (h1 : a1.hash_id = none) (h2 : a2.hash_id = none)
    (href : a1.reference = a2.reference) (ht : a1.title = a2.title)
    (ho : a1.originator = a2.originator)
    (hd : a1.issue_date.date = a2.issue_date.date) :
    (Alert.postInit n1 a1).hash_id = (Alert.postInit n2 a2).hash_id ∧
    (Alert.postInit n1 a1).hash_id =
      some (md5hex (a1.reference ++ "|" ++ a1.title ++ "|" ++ a1.originator ++ "|" ++
        formatDate a1.issue_date)) := by
  have e1 := postInit_hash n1 a1 h1
  have e2 := postInit_hash n2 a2 h2
  refine ⟨?_, e1⟩
  rw [e1, e2, href, ht, ho, formatDate_congr _ _ hd]

/-- Witness for C2: two concrete constructions with equal identity fields
(at day granularity) but different times, statuses, sources, urls and
construction clocks give the same hash. -/
theorem generate_hash_deterministic_witness :
    (Alert.postInit ⟨2025, 3, 5, 0, 0, 0⟩ c2a).hash_id =
      (Alert.postInit ⟨2025, 3, 6, 1, 2, 3⟩ c2b).hash_id ∧
    (Alert.postInit ⟨2025, 3, 5, 0, 0, 0⟩ c2a).hash_id =
      some (md5hex (c2a.reference ++ "|" ++ c2a.title ++ "|" ++ c2a.originator ++ "|" ++
        formatDate c2a.issue_date)) :=
  generate_hash_deterministic c2a c2b _ _ rfl rfl rfl rfl rfl (by decide)

/-- C3 counterexample: in the three-record chain `dupC ~ dupA ~ dupB` with
`dupC` and `dupB` not matched, the pair `(dupA, dupB)` is directly
`is_duplicate`-matched, yet the survivor of that pair is `dupB` — the record
with the higher original index — because `dupA` was already suppressed by
`dupC`.  This refutes the reading that of two directly matched records only
the lowest-indexed one is ever retained. -/
theorem remove_duplicates_lowest_index_counterexample :
    is_duplicate DUPLICATE_THRESHOLD dupA dupB = true ∧
    remove_duplicates DUPLICATE_THRESHOLD [dupC, dupA, dupB] = [dupC, dupB] := by
  exact ⟨by decide, by decide⟩

/-- C3 (amended): any two records kept by `remove_duplicates` (earlier one as
left argument) are not `is_duplicate`-matched — so at most one record per
direct-match pair survives — and a survivor of the exact pass removed by the
fuzzy phase is always `is_duplicate`-matched by some *kept* record: already
removed records never suppress anything in the fuzzy phase. -/
theorem remove_duplicates_chain_marking (t : ℚ) (xs : List Alert) :
    List.Pairwise (fun x y => is_duplicate t x y = false) (remove_duplicates t xs) ∧
    (∀ r ∈ exactPass [] [] xs, r ∉ remove_duplicates t xs →
      ∃ k, k ∈ remove_duplicates t xs ∧ is_duplicate t k r = true) := by
  constructor
  · exact fuzzyPassAux_pairwise t _ []
  · intro r hr hnr
    obtain ⟨k, hkmem, hdup⟩ :=
      fuzzyPassAux_removed t (exactPass [] [] xs) [] r hr hnr
    rcases hkmem with hk | hk
    · exact absurd hk (List.not_mem_nil k)
    · exact ⟨k, hk, hdup⟩

/-- Witness for C3 (amended): in the chain scenario the removed record
`dupA` is matched by the kept record `dupC`. -/
theorem remove_duplicates_chain_marking_witness :
    ∃ k, k ∈ remove_duplicates DUPLICATE_THRESHOLD [dupC, dupA, dupB] ∧
      is_duplicate DUPLICATE_THRESHOLD k dupA = true :=
  (remove_duplicates_chain_marking DUPLICATE_THRESHOLD [dupC, dupA, dupB]).2
    dupA (by decide) (by decide)

/-- C4: the output of `remove_duplicates` is a subsequence of its input —
every kept record occurs in the input and the kept records appear in input
order. -/
theorem remove_duplicates_subsequence (t : ℚ) (xs : List Alert) :
    List.Sublist (remove_duplicates t xs) xs := by
  unfold remove_duplicates fuzzyPass
  exact (fuzzyPassAux_sublist t _ []).trans (exactPass_sublist xs [] [])

/-- C5: `remove_duplicates` is idempotent. -/
theorem remove_duplicates_idempotent (t : ℚ) (xs : List Alert) :
    remove_duplicates t (remove_duplicates t xs) = remove_duplicates t xs := by
  have hpwEx : List.Pairwise exactDistinct (remove_duplicates t xs) :=
    List.Pairwise.sublist (fuzzyPassAux_sublist t _ []) (exactPass_pairwise xs [] [])
  have hpwDup : List.Pairwise (fun x y => is_duplicate t x y = false)
      (remove_duplicates t xs) := fuzzyPassAux_pairwise t _ []
  show fuzzyPassAux t [] (exactPass [] [] (remove_duplicates t xs))
    = remove_duplicates t xs
  rw [exactPass_id _ [] []
      (fun b _ => ⟨fun _ => List.not_mem_nil _, fun _ => List.not_mem_nil _⟩) hpwEx,
    fuzzyPassAux_id t _ [] hpwDup (fun b _ k hk => absurd hk (List.not_mem_nil k))]

/-- C6: the merge planner accepts exactly the candidates, in order, whose
non-empty hash is not among the known hashes and whose non-empty reference is
not among the known references, immediately adding an accepted candidate's
hash and reference to the known sets; only exact hash/reference membership is
consulted (the fuzzy detector never runs against the store). -/
theorem update_with_new_alerts_exact_plan (known cs : List Alert) :
    update_with_new_alerts known cs =
      planSpec (knownHashes known) (knownRefs known) cs :=
  selectNew_eq_planSpec cs _ _

/-- C7: re-running the planner with the same candidates against the store
extended by the first run's acceptances returns nothing new (every valid
candidate carries a truthy hash, so a second pass skips it); determinism of a
single run is immediate since the planner is a pure function; and with an
empty store the planner degenerates to the engine's exact intra-batch
duplicate filter. -/
theorem update_planner_idempotent :
    (∀ known cs : List Alert, (∀ c ∈ cs, c.Valid) →
      update_with_new_alerts (known ++ update_with_new_alerts known cs) cs = []) ∧
    (∀ cs : List Alert, update_with_new_alerts [] cs = exactPass [] [] cs) ∧
    (∀ known cs : List Alert,
      update_with_new_alerts known cs = update_with_new_alerts known cs) := by
  refine ⟨?_, ?_, fun known cs => rfl⟩
  · intro known cs hval
    unfold update_with_new_alerts
    apply selectNew_again_nil cs (knownHashes known) (knownRefs known)
    · intro s hs
      rw [knownHashes_append]
      exact List.mem_append_left _ hs
    · intro s hs
      rw [knownRefs_append]
      exact List.mem_append_left _ hs
    · intro c hc
      exact (hval c hc).1
    · intro c hc
      have htr : c.hashTruthy = true := (hval c (selectNew_mem cs _ _ c hc)).1
      constructor
      · rw [knownHashes_append]
        exact List.mem_append_right _ (hashStr_mem_knownHashes _ c hc htr)
      · intro hne
        rw [knownRefs_append]
        exact List.mem_append_right _ (ref_mem_knownRefs _ c hc hne)
  · intro cs
    show selectNew (knownHashes []) (knownRefs []) cs = exactPass [] [] cs
    exact selectNew_eq_exactPass cs [] []

/-- Witness for C7: a concrete store and candidate batch where the second
planner run returns the empty list. -/
theorem update_planner_idempotent_witness :
    update_with_new_alerts ([pk] ++ update_with_new_alerts [pk] [pc1, pc2])
      [pc1, pc2] = [] :=
  update_planner_idempotent.1 [pk] [pc1, pc2] (by decide)

/-- C8: the `to_dict` / `from_dict` round trip of a valid record reproduces
its identity hash and every required field (`issue_date` is carried at day
granularity, which is exact for valid records). -/
theorem to_dict_from_dict_roundtrip (a : Alert) (now : DateTime) (hv : a.Valid) :
    ∃ b : Alert, Alert.from_dict (Alert.to_dict a) now = some b ∧
      b.hash_id = a.hash_id ∧ b.reference = a.reference ∧ b.title = a.title ∧
      b.originator = a.originator ∧ b.issue_date = a.issue_date ∧
      b.status = a.status ∧ b.alert_type = a.alert_type ∧
      b.source = a.source ∧ b.url = a.url := by
  obtain ⟨htr, hday, hh0, hm0, hs0, hscr⟩ := hv
  have hhne : a.hash_id ≠ none := by
    intro hcon
    unfold Alert.hashTruthy at htr
    rw [hcon] at htr
    exact Bool.false_ne_true htr
  have heta : a.issue_date = ⟨a.issue_date.year, a.issue_date.month,
      a.issue_date.day, a.issue_date.hour, a.issue_date.minute,
      a.issue_date.second⟩ := rfl
  rw [hh0, hm0, hs0] at heta
  have hpd : parseYmd (formatDate a.issue_date) = some a.issue_date := by
    rw [parseYmd_formatDate _ hday]
    exact congrArg some (show a.issue_date.midnight = a.issue_date from heta.symm)
  unfold Alert.from_dict Alert.to_dict
  simp only [Option.getD_some]
  rw [if_neg (formatDate_ne_empty a.issue_date), hpd]
  simp only [optBind_some]
  cases hsc : a.scraped_at with
  | none =>
    rw [if_pos (by trivial)]
    simp only [optBind_some]
    exact ⟨_, rfl, postInit_hash_id_of_set _ _ hhne, postInit_reference _ _,
      postInit_title _ _, postInit_originator _ _, postInit_issue_date _ _,
      postInit_status _ _, postInit_alert_type _ _, postInit_source _ _,
      postInit_url _ _⟩
  | some st =>
    have hst : validStamp st := by
      rw [hsc] at hscr
      exact hscr
    rw [if_neg (formatDateTime_ne_empty st), parseYmdHms_formatDateTime st hst]
    simp only [optBind_some]
    exact ⟨_, rfl, postInit_hash_id_of_set _ _ hhne, postInit_reference _ _,
      postInit_title _ _, postInit_originator _ _, postInit_issue_date _ _,
      postInit_status _ _, postInit_alert_type _ _, postInit_source _ _,
      postInit_url _ _⟩

/-- Witness for C8: the round trip on a concrete valid record. -/
theorem to_dict_from_dict_roundtrip_witness :
    ∃ b : Alert, Alert.from_dict (Alert.to_dict rt) ⟨2025, 7, 8, 9, 0, 0⟩ = some b ∧
      b.hash_id = rt.hash_id ∧ b.reference = rt.reference ∧ b.title = rt.title ∧
      b.originator = rt.originator ∧ b.issue_date = rt.issue_date ∧
      b.status = rt.status ∧ b.alert_type = rt.alert_type ∧
      b.source = rt.source ∧ b.url = rt.url :=
  to_dict_from_dict_roundtrip rt _ (by decide)

/-- C9: `is_duplicate` is symmetric, despite the left-to-right evaluation of
its checks. -/
theorem is_duplicate_symmetric (t : ℚ) (a b : Alert) :
    is_duplicate t a b = is_duplicate t b a := by
  rw [is_duplicate_eq_or, is_duplicate_eq_or, refCond_comm, fuzzyCond_comm,
    hashCond_comm]

/-- C10 counterexample: a mapping with no `Issue Date` entry but a malformed
`Scraped At` entry makes `from_dict` raise (modelled as `none`), refuting
"raises no error" for every mapping with an absent or empty date. -/
theorem from_dict_raises_counterexample :
    Alert.from_dict badRow ⟨2025, 3, 1, 0, 0, 0⟩ = none := by decide

/-- C10 (amended): when `Issue Date` is absent or empty — and `Scraped At` is
absent, empty, or well-formed — `from_dict` succeeds and substitutes the
current clock time for `issue_date` (and for `scraped_at` when that entry is
absent or empty); consequently a row that also lacks `Hash ID` gets an
identity hash depending on the day of reconstruction: reconstructing the
all-absent row on two different days yields different hashes. -/
theorem from_dict_missing_date_defaults :
    (∀ (row : Row) (now : DateTime),
      (row.issueDate = none ∨ row.issueDate = some "") →
      (row.scrapedAt = none ∨ row.scrapedAt = some "" ∨
        (∃ t, parseYmdHms ((row.scrapedAt).getD "") = some t)) →
      ∃ a, Alert.from_dict row now = some a ∧ a.issue_date = now ∧
        ((row.scrapedAt = none ∨ row.scrapedAt = some "") →
          a.scraped_at = some now)) ∧
    (Alert.from_dict emptyRow d0101).map Alert.hash_id ≠
      (Alert.from_dict emptyRow d0102).map Alert.hash_id := by
  constructor
  · intro row now hdate hscr
    have hds : (row.issueDate).getD "" = "" := by
      rcases hdate with h | h <;> rw [h] <;> rfl
    unfold Alert.from_dict
    rw [hds, if_pos (by trivial)]
    simp only [optBind_some]
    by_cases hss : (row.scrapedAt).getD "" = ""
    · rw [if_pos hss]
      simp only [optBind_some]
      refine ⟨_, rfl, ?_, ?_⟩
      · rw [postInit_issue_date]
      · intro _
        exact postInit_scraped_at _ _ _ rfl
    · rcases hscr with h | h | ⟨t, hparse⟩
      · rw [h] at hss
        exact absurd rfl hss
      · rw [h] at hss
        exact absurd rfl hss
      · rw [if_neg hss, hparse]
        simp only [optBind_some]
        refine ⟨_, rfl, ?_, ?_⟩
        · rw [postInit_issue_date]
        · intro hcon
          rcases hcon with h | h <;> rw [h] at hss <;> exact absurd rfl hss
  · decide

/-- Witness for C10 (amended): reconstructing the all-absent row substitutes
the given clock for both dates. -/
theorem from_dict_missing_date_defaults_witness :
    ∃ a, Alert.from_dict emptyRow d0101 = some a ∧ a.issue_date = d0101 ∧
      ((emptyRow.scrapedAt = none ∨ emptyRow.scrapedAt = some "") →
        a.scraped_at = some d0101) :=
  from_dict_missing_date_defaults.1 emptyRow d0101 (Or.inl rfl) (Or.inl rfl)

end CasAlert
